import Mathlib

/-!
Verification development for the `bevy_vulkano_ios` Game-of-Life engine.

The development shallowly embeds the GPU compute shader and the CPU-side
engine logic of `src/game_of_life.rs`, the quad draw pipeline of
`src/quad_pipeline.rs` and the composite render pass of `src/render_pass.rs`.

Modelling conventions:
- GPU storage buffers (`uint life_in[]`, `uint life_out[]`) are `List Nat`;
  the `rgba8` color image is a row-major `List Vec4` with one texel per cell.
- Buffer accesses model robust buffer access: an out-of-range read yields 0,
  an out-of-range write is dropped (`List.set` is the identity past the end).
- `vec4` push-constant colors are carried as exact rationals; the embedded
  code only stores and compares them, never computes with them.
- A GPU dispatch executes one shader invocation per cell in an unspecified
  order; we model an execution as a fold over an explicit schedule (a list of
  invocation ids).  Schedule-independence, where true, is proved; where the
  code is schedule-dependent this is made explicit.
-/

/-- Exact-rational stand-in for a GLSL `vec4` (used for the two push-constant
colors and the texels of the `rgba8` image). -/
def Vec4 : Type := ℚ × ℚ × ℚ × ℚ

instance : DecidableEq Vec4 := by unfold Vec4; infer_instance

/-- Push constants of the compute shader in `game_of_life.rs`:
`vec4 life_color; vec4 dead_color; int step; bool swap_read_order;`. -/
structure PushConstants where
  life_color : Vec4
  dead_color : Vec4
  step : Int
  swap_read_order : Bool

/-- The state bound to the compute shader: the two grid buffers
(binding 1 and 2) and the color image (binding 0). -/
structure SimState where
  life_in : List Nat
  life_out : List Nat
  img : List Vec4
deriving DecidableEq

/-- Robust-buffer-access read of a storage buffer: out-of-range indices
(negative or past the end) read as 0. -/
def readBuf (buf : List Nat) (i : Int) : Nat :=
  if 0 ≤ i then buf.getD i.toNat 0 else 0

/-- Robust-buffer-access write of a storage buffer: out-of-range writes
(negative or past the end) are dropped. -/
def writeBuf {α : Type} (buf : List α) (i : Int) (v : α) : List α :=
  if 0 ≤ i then buf.set i.toNat v else buf

/-- Shader `get_index`: `pos.y * dims.x + pos.x`, where `dims.x` is the
width of the color image (which equals the grid width). -/
def get_index (w : Int) (pos : Int × Int) : Int :=
  pos.2 * w + pos.1

/-- Shader `read_life`: reads `life_out` when `swap_read_order` else `life_in`. -/
def read_life (pc : PushConstants) (st : SimState) (index : Int) : Nat :=
  if pc.swap_read_order then readBuf st.life_out index else readBuf st.life_in index

/-- Shader `write_life`: writes `life_in` when `swap_read_order` else `life_out`. -/
def write_life (pc : PushConstants) (st : SimState) (index : Int) (life : Nat) : SimState :=
  if pc.swap_read_order then { st with life_in := writeBuf st.life_in index life }
  else { st with life_out := writeBuf st.life_out index life }

/-- The eight Moore-neighborhood offsets, in the order the shader reads them:
up_left, up, up_right, right, down_right, down, down_left, left. -/
def neighborOffsets : List (Int × Int) :=
  [(-1, 1), (0, 1), (1, 1), (1, 0), (1, -1), (0, -1), (-1, -1), (-1, 0)]

/-- The shader's neighbor count: for each of the eight offsets it tests
`life_out[get_index(pos + offset)] == 1` — reading the `life_out` buffer
unconditionally (not through `read_life`). -/
def alive_count (w : Int) (life_out : List Nat) (pos : Int × Int) : Nat :=
  List.countP
    (fun o => readBuf life_out (get_index w (pos.1 + o.1, pos.2 + o.2)) == 1)
    neighborOffsets

/-- The rule branch of `compute_life`: dead with exactly 3 alive neighbors
becomes 1; `(current_life == 1 && alive_count < 2) || alive_count > 3`
(GLSL precedence: `&&` binds tighter than `||`) becomes 0; otherwise the
current value is written back. -/
def life_rule (current_life : Nat) (alive_count : Nat) : Nat :=
  if current_life = 0 ∧ alive_count = 3 then 1
  else if (current_life = 1 ∧ alive_count < 2) ∨ alive_count > 3 then 0
  else current_life

/-- Shader `compute_life` for one invocation at `pos`: neighbor count from
`life_out`, current state through `read_life`, result through `write_life`. -/
def compute_life (w : Int) (pc : PushConstants) (pos : Int × Int) (st : SimState) : SimState :=
  let index := get_index w pos
  let n := alive_count w st.life_out pos
  let current_life := read_life pc st index
  write_life pc st index (life_rule current_life n)

/-- Shader `compute_color` for one invocation at `pos`: reads
`life_out[index]` unconditionally and stores `life_color` or `dead_color`
into the image texel at `pos`. -/
def compute_color (w : Int) (pc : PushConstants) (pos : Int × Int) (st : SimState) : SimState :=
  let index := get_index w pos
  if readBuf st.life_out index = 1 then
    { st with img := writeBuf st.img index pc.life_color }
  else
    { st with img := writeBuf st.img index pc.dead_color }

/-- Shader `main`: `compute_life` when `push_constants.step == 0`, else
`compute_color`. -/
def shader_main (w : Int) (pc : PushConstants) (pos : Int × Int) (st : SimState) : SimState :=
  if pc.step = 0 then compute_life w pc pos st else compute_color w pc pos st

/-- Execution of one dispatch under an explicit schedule: the invocations in
`sched` run one after the other, each reading the state left by the previous
ones.  A real GPU interleaves invocations in an unspecified order; properties
that hold for every schedule are order-independent. -/
def runInvocations (w : Int) (pc : PushConstants) (sched : List (Int × Int))
    (st : SimState) : SimState :=
  List.foldl (fun s p => shader_main w pc p s) st sched

/-- The invocation ids covered by `dispatch([w / 8, h / 8, 1])` with an
8 by 8 local size, in row-major order (the canonical schedule). -/
def dispatchCells (w h : Nat) : List (Int × Int) :=
  (List.range (h / 8 * 8)).flatMap
    (fun y => (List.range (w / 8 * 8)).map (fun x => ((x : Int), (y : Int))))

/-- The CPU-side engine state of `struct GameOfLife`: grid dimensions, the
double-buffered grids plus the color image (the shader-visible state), and
the step counter `sim_steps`.  In the source `sim_steps` is a `u32`; it is
held here as a `Nat` that every engine operation keeps below 2^32, with the
increment wrapping modulo 2^32 exactly as release-mode `u32` addition. -/
structure GameOfLife where
  width : Nat
  height : Nat
  buffers : SimState
  sim_steps : Nat
deriving DecidableEq

/-- Engine construction `GameOfLife::new`: both grids are randomly
initialized by `rand_grid` (the random contents are taken as parameters
`init_in`, `init_out` of the model), the color image is freshly allocated,
and `sim_steps` starts at 0. -/
def GameOfLife.new (width height : Nat) (init_in init_out : List Nat) : GameOfLife :=
  { width := width
    height := height
    buffers :=
      { life_in := init_in
        life_out := init_out
        img := List.replicate (width * height) ((0, 0, 0, 0) : Vec4) }
    sim_steps := 0 }

/-- Getter `GameOfLife::color_image`: returns the color image; it takes the
engine by shared reference and mutates nothing. -/
def GameOfLife.color_image (g : GameOfLife) : List Vec4 :=
  g.buffers.img

/-- Exact-arithmetic semantics of the f32 test
`world_pos.distance(pos).round() <= radius as f32` of `draw_life`, for
integer coordinates `dx = x - pos.x`, `dy = y - pos.y` and integer `radius`:
with `f32::round` rounding half away from zero and the distance nonnegative,
`round(sqrt(s)) <= r` holds iff `0 <= r` and `sqrt(s) < r + 1/2`, i.e. iff
`4*s < (2*r+1)^2` (the two sides are never equal: one is odd, one is even).
For grid-scale inputs the f32 computation realizes this exactly. -/
def roundDistLe (dx dy r : Int) : Bool :=
  0 ≤ r ∧ 4 * (dx ^ 2 + dy ^ 2) < (2 * r + 1) ^ 2

/-- Body of the double loop of `GameOfLife::draw_life` for one scanned
coordinate `p`: if the rounded distance to the brush center is within the
radius, and `p` is inside the grid (`continue` otherwise), and the random
coin (`rand::thread_rng().gen::<f32>() > 0.5`, modelled by `coin`) comes up,
the cell `p.y * width + p.x` of the edited buffer is set to 1. -/
def drawCell (w h : Nat) (center : Int × Int) (radius : Int)
    (coin : Int × Int → Bool) (buf : List Nat) (p : Int × Int) : List Nat :=
  if roundDistLe (p.1 - center.1) (p.2 - center.2) radius then
    if p.2 < 0 ∨ (h : Int) ≤ p.2 ∨ p.1 < 0 ∨ (w : Int) ≤ p.1 then buf
    else if coin p then buf.set (p.2 * w + p.1).toNat 1 else buf
  else buf

/-- The closed integer range `lo..=hi` as a list. -/
def scanRange (lo hi : Int) : List Int :=
  (List.range (hi + 1 - lo).toNat).map (fun i => lo + i)

/-- The double loop of `GameOfLife::draw_life`: scans the square
`pos - radius ..= pos + radius` (y outer loop, x inner loop) applying
`drawCell` at each scanned coordinate. -/
def drawScan (w h : Nat) (center : Int × Int) (radius : Int)
    (coin : Int × Int → Bool) (buf : List Nat) : List Nat :=
  List.foldl (drawCell w h center radius coin) buf
    ((scanRange (center.2 - radius) (center.2 + radius)).flatMap
      (fun y => (scanRange (center.1 - radius) (center.1 + radius)).map (fun x => (x, y))))

/-- User edit `GameOfLife::draw_life(pos, radius)`: picks the buffer to edit
by the parity of `sim_steps` (`life_out` when even, `life_in` when odd),
returns unchanged if `pos` itself is out of bounds, and otherwise runs the
`drawScan` double loop over that buffer. -/
def GameOfLife.draw_life (g : GameOfLife) (pos : Int × Int) (radius : Int)
    (coin : Int × Int → Bool) : GameOfLife :=
  if pos.2 < 0 ∨ (g.height : Int) ≤ pos.2 ∨ pos.1 < 0 ∨ (g.width : Int) ≤ pos.1 then g
  else if g.sim_steps % 2 = 0 then
    { g with buffers :=
        { g.buffers with
            life_out := drawScan g.width g.height pos radius coin g.buffers.life_out } }
  else
    { g with buffers :=
        { g.buffers with
            life_in := drawScan g.width g.height pos radius coin g.buffers.life_in } }

/-- One builder-recorded dispatch of `GameOfLife::dispatch`, executed under
schedule `sched`: binds the pipeline, the descriptor set (image, `life_in`,
`life_out`) and the push constants, then dispatches `[w / 8, h / 8, 1]`
work groups. -/
def GameOfLife.dispatch (g : GameOfLife) (life_color dead_color : Vec4)
    (step : Int) (swap_read_order : Bool) (sched : List (Int × Int)) : GameOfLife :=
  let pc : PushConstants :=
    { life_color := life_color
      dead_color := dead_color
      step := step
      swap_read_order := swap_read_order }
  { g with buffers := runInvocations (g.width : Int) pc sched g.buffers }

/-- Step call `GameOfLife::compute(life_color, dead_color)`: records the
simulation dispatch (`step = 0`, `swap_read_order = (sim_steps % 2 == 0)`),
then the colorization dispatch (`step = 1`, no swap), executes the command
buffer, waits on the fence, and finally increments `sim_steps`.  The GPU
runs the invocations of each dispatch in an unspecified order; this model
instantiates the canonical row-major schedule (schedule dependence is
analysed separately through `runInvocations`).  The counter is a `u32`, so
`self.sim_steps += 1` is performed modulo 2^32: in a release build the
increment wraps from 2^32 - 1 to 0 (a debug build would panic there). -/
def GameOfLife.compute (g : GameOfLife) (life_color dead_color : Vec4) : GameOfLife :=
  let sched := dispatchCells g.width g.height
  let g1 := g.dispatch life_color dead_color 0 (g.sim_steps % 2 = 0) sched
  let g2 := g1.dispatch life_color dead_color 1 false sched
  { g2 with sim_steps := (g2.sim_steps + 1) % 4294967296 }

/-- Observable events of one `GameOfLife::compute` call, in program order. -/
inductive GpuEvent where
  /-- A `self.dispatch(..)` call recording a compute dispatch with the given
  `step` and `swap_read_order` push constants. -/
  | dispatchCmd (step : Int) (swap_read_order : Bool)
  /-- Building and executing the command buffer on the compute queue. -/
  | submit
  /-- The blocking `then_signal_fence_and_flush().wait(None)`. -/
  | fenceWait
  /-- The `self.sim_steps += 1` increment. -/
  | incStep
deriving DecidableEq

/-- Whether an event is a dispatch record. -/
def GpuEvent.isDispatchCmd : GpuEvent → Bool
  | .dispatchCmd _ _ => true
  | _ => false

/-- The event trace of `GameOfLife::compute` when entered with step counter
`sim_steps`, in source order: simulation dispatch, colorization dispatch,
submit, blocking fence wait, counter increment. -/
def computeEvents (sim_steps : Nat) : List GpuEvent :=
  [.dispatchCmd 0 (sim_steps % 2 = 0), .dispatchCmd 1 false, .submit, .fenceWait, .incStep]

/-- An engine-level operation issued by the caller between construction and
the point of observation: a user edit or a step call. -/
inductive EngineOp where
  /-- A `draw_life` call (with its random coin stream). -/
  | edit (pos : Int × Int) (radius : Int) (coin : Int × Int → Bool)
  /-- A `compute` call. -/
  | step (life_color dead_color : Vec4)

/-- Whether an engine operation is a step call. -/
def EngineOp.isStep : EngineOp → Bool
  | .step _ _ => true
  | _ => false

/-- Runs a sequence of engine operations from a given engine state. -/
def GameOfLife.runOps (g : GameOfLife) (ops : List EngineOp) : GameOfLife :=
  List.foldl
    (fun g op =>
      match op with
      | .edit pos radius coin => g.draw_life pos radius coin
      | .step life_color dead_color => g.compute life_color dead_color)
    g ops

/-- Reference per-cell step: the new state of `pos` computed purely from the
snapshot `snapshot` (own state and the eight neighbor reads, with the
kernel's flat addressing). -/
def life_ref_cell (w : Int) (snapshot : List Nat) (pos : Int × Int) : Nat :=
  life_rule (readBuf snapshot (get_index w pos)) (alive_count w snapshot pos)

/-- Reference CPU implementation of one full generation: every cell of the
new grid is a function of the snapshot of the input buffer alone. -/
def life_ref_step (w h : Nat) (snapshot : List Nat) : List Nat :=
  (List.range h).flatMap
    (fun y => (List.range w).map (fun x => life_ref_cell (w : Int) snapshot ((x : Int), (y : Int))))

/-- Vertex for textured quads, from `quad_pipeline.rs` (the f32 coordinates
used by the program are small dyadic values, carried exactly as rationals). -/
structure TexturedVertex where
  position : ℚ × ℚ
  tex_coords : ℚ × ℚ
deriving DecidableEq

/-- Function `textured_quad(width, height)`: four corner vertices with
texture coordinates, and the index list `[0, 2, 1, 0, 3, 2]`. -/
def textured_quad (width height : ℚ) : List TexturedVertex × List Nat :=
  ([{ position := (-(width / 2), -(height / 2)), tex_coords := (0, 1) },
    { position := (-(width / 2), height / 2), tex_coords := (0, 0) },
    { position := (width / 2, height / 2), tex_coords := (1, 0) },
    { position := (width / 2, -(height / 2)), tex_coords := (1, 1) }],
   [0, 2, 1, 0, 3, 2])

/-- Vulkan sampler filter. -/
inductive SamplerFilter where
  | nearest
  | linear
deriving DecidableEq

/-- Vulkan sampler address mode. -/
inductive SamplerAddressMode where
  | clampToEdge
  | repeatMode
deriving DecidableEq

/-- The sampler configuration built in `DrawQuadPipeline::new`. -/
structure SamplerInfo where
  mag_filter : SamplerFilter
  min_filter : SamplerFilter
  address_mode : SamplerAddressMode × SamplerAddressMode × SamplerAddressMode
  mipmap_mode : SamplerFilter
deriving DecidableEq

/-- State of `DrawQuadPipeline`: the sampler and the vertex/index buffers
filled once from `textured_quad(2.0, 2.0)` at construction.  No method ever
assigns these fields again. -/
structure DrawQuadPipeline where
  sampler : SamplerInfo
  vertices : List TexturedVertex
  indices : List Nat
deriving DecidableEq

/-- Constructor `DrawQuadPipeline::new`: quad geometry from
`textured_quad(2.0, 2.0)` and a nearest-filter, clamp-to-edge sampler. -/
def DrawQuadPipeline.new : DrawQuadPipeline :=
  { sampler :=
      { mag_filter := .nearest
        min_filter := .nearest
        address_mode := (.clampToEdge, .clampToEdge, .clampToEdge)
        mipmap_mode := .nearest }
    vertices := (textured_quad 2 2).1
    indices := (textured_quad 2 2).2 }

/-- Column-major 4 by 4 array of `Mat4::IDENTITY.to_cols_array_2d()`. -/
def mat4_identity_cols : List (List ℚ) :=
  [[1, 0, 0, 0], [0, 1, 0, 0], [0, 0, 1, 0], [0, 0, 0, 1]]

/-- Commands recorded by `DrawQuadPipeline::draw` into the secondary command
buffer builder, in order. -/
inductive QuadCmd where
  /-- Dynamic viewport with origin, dimensions and depth range. -/
  | setViewport (origin : ℚ × ℚ) (dims : ℚ × ℚ) (depth_lo depth_hi : ℚ)
  /-- Graphics pipeline bind. -/
  | bindPipelineGraphics
  /-- Descriptor set bind: the sampled source texture (an opaque handle)
  with its sampler. -/
  | bindDescriptorSets (image : Nat) (sampler : SamplerInfo)
  /-- Push constants: the `world_to_screen` matrix. -/
  | pushConstants (world_to_screen : List (List ℚ))
  /-- Vertex buffer bind. -/
  | bindVertexBuffers (vertices : List TexturedVertex)
  /-- Index buffer bind. -/
  | bindIndexBuffer (indices : List Nat)
  /-- The indexed draw call
  `draw_indexed(index_count, instance_count, first_index, vertex_offset, first_instance)`. -/
  | drawIndexed (index_count instance_count first_index vertex_offset first_instance : Nat)
deriving DecidableEq

/-- Whether a quad command is the indexed draw call. -/
def QuadCmd.isDrawIndexed : QuadCmd → Bool
  | .drawIndexed _ _ _ _ _ => true
  | _ => false

/-- Method `DrawQuadPipeline::draw(builder, viewport_dimensions, image)`:
the exact command sequence it records (it mutates nothing else). -/
def DrawQuadPipeline.draw (p : DrawQuadPipeline) (viewport_dimensions : Nat × Nat)
    (image : Nat) : List QuadCmd :=
  [.setViewport (0, 0) ((viewport_dimensions.1 : ℚ), (viewport_dimensions.2 : ℚ)) 0 1,
   .bindPipelineGraphics,
   .bindDescriptorSets image p.sampler,
   .pushConstants mat4_identity_cols,
   .bindVertexBuffers p.vertices,
   .bindIndexBuffer p.indices,
   .drawIndexed p.indices.length 1 0 0 0]

/-- Load operation of the single color attachment of the render pass. -/
inductive AttachmentLoadOp where
  | clear
  | load
deriving DecidableEq

/-- Store operation of the single color attachment of the render pass. -/
inductive AttachmentStoreOp where
  | store
  | dontCare
deriving DecidableEq

/-- The single-attachment render-pass description created by
`single_pass_renderpass!` in `FillScreenRenderPass::new`. -/
structure RenderPassDesc where
  load : AttachmentLoadOp
  store : AttachmentStoreOp
deriving DecidableEq

/-- State of `FillScreenRenderPass`: the render-pass description and the
quad pipeline created for its single subpass. -/
structure FillScreenRenderPass where
  render_pass : RenderPassDesc
  quad_pipeline : DrawQuadPipeline
deriving DecidableEq

/-- Constructor `FillScreenRenderPass::new`: one color attachment with
`load: Clear, store: Store`, and a `DrawQuadPipeline` on subpass 0. -/
def FillScreenRenderPass.new : FillScreenRenderPass :=
  { render_pass := { load := .clear, store := .store }
    quad_pipeline := DrawQuadPipeline.new }

/-- Commands recorded by `FillScreenRenderPass::draw` into the primary
command buffer, in order. -/
inductive RenderCmd where
  /-- Render pass begin, against a framebuffer holding the target swapchain
  image, with the given clear value. -/
  | beginRenderPass (clear_value : Vec4) (framebuffer : Nat)
  /-- Execution of the secondary command buffer of the single subpass. -/
  | executeCommands (secondary : List QuadCmd)
  /-- Render pass end. -/
  | endRenderPass
deriving DecidableEq

/-- A GPU frame future: either an opaque handle supplied by the caller or
work chained after an earlier future with `then_execute`. -/
inductive FrameFuture where
  /-- An opaque future handle (such as the acquire future of the frame). -/
  | handle (id : Nat)
  /-- The future of `before.then_execute(queue, command_buffer)`. -/
  | thenExecute (before : FrameFuture) (command_buffer : List RenderCmd)
deriving DecidableEq

/-- The target swapchain image view: an opaque handle plus its dimensions. -/
structure SwapchainTarget where
  id : Nat
  dims : Nat × Nat
deriving DecidableEq

/-- Method `FillScreenRenderPass::draw(before_future, canvas_image, target,
clear_color)`: begins the render pass on a framebuffer of `target` with
`clear_color`, executes one secondary command buffer holding exactly the
quad-pipeline draw of `canvas_image`, ends the render pass, and returns the
future chaining this command buffer after `before_future` (it never waits). -/
def FillScreenRenderPass.draw (rp : FillScreenRenderPass) (before_future : FrameFuture)
    (canvas_image : Nat) (target : SwapchainTarget) (clear_color : Vec4) : FrameFuture :=
  let image_dims := target.dims
  let secondary := rp.quad_pipeline.draw image_dims canvas_image
  let command_buffer :=
    [RenderCmd.beginRenderPass clear_color target.id,
     RenderCmd.executeCommands secondary,
     RenderCmd.endRenderPass]
  FrameFuture.thenExecute before_future command_buffer

/-- All-dead 8 by 8 grid. -/
def deadGrid8 : List Nat := List.replicate 64 0

/-- 8 by 8 grid alive exactly at cells (3,5), (4,5), (5,5)
(flat indices 43, 44, 45). -/
def rowGrid8 : List Nat :=
  (List.range 64).map (fun i => if i = 43 ∨ i = 44 ∨ i = 45 then 1 else 0)

/-- 8 by 8 grid alive exactly at cells (1,0), (2,0), (2,1)
(flat indices 1, 2, 10). -/
def raceGrid8 : List Nat :=
  (List.range 64).map (fun i => if i = 1 ∨ i = 2 ∨ i = 10 then 1 else 0)

/-- A freshly constructed 8 by 8 engine (step counter 0, even parity) whose
random initial grids came out as `deadGrid8` (in) and `rowGrid8` (out). -/
def evenEngine8 : GameOfLife := GameOfLife.new 8 8 deadGrid8 rowGrid8

/-- The same engine state one completed step later in parity terms: step
counter 1 (odd parity), authoritative buffer `life_in` all dead, stale
`life_out` holding `rowGrid8`. -/
def oddEngine8 : GameOfLife :=
  { width := 8
    height := 8
    buffers := { life_in := deadGrid8, life_out := rowGrid8, img := List.replicate 64 (0, 0, 0, 0) }
    sim_steps := 1 }

/-- Push constants of a simulation dispatch at odd parity (no swap). -/
def oddSimPc : PushConstants :=
  { life_color := (1, 0, 0, 1)
    dead_color := (0, 0, 1, 1)
    step := 0
    swap_read_order := false }

/-- Shader-visible state with all-dead `life_in` and `raceGrid8` in
`life_out`, used to exhibit schedule dependence at odd parity. -/
def raceState8 : SimState :=
  { life_in := deadGrid8, life_out := raceGrid8, img := List.replicate 64 ((0, 0, 0, 0) : Vec4) }

/-- An 8 by 8 engine state whose `u32` step counter has reached the maximum
value 2^32 - 1 (the state after 2^32 - 1 completed step calls). -/
def wrapEngine8 : GameOfLife :=
  { width := 8, height := 8, buffers := raceState8, sim_steps := 4294967295 }

/-- The buffer `draw_life` edits, selected by the parity of `sim_steps`
exactly as in lines 97-103 of `game_of_life.rs`: `life_out` when the step
counter is even, `life_in` when it is odd. -/
def edit_target (g : GameOfLife) : List Nat :=
  if g.sim_steps % 2 = 0 then g.buffers.life_out else g.buffers.life_in

/-- The texel value `compute_color` stores for flat index `i`:
`life_color` when `life_out[i] == 1`, else `dead_color`. -/
def color_value (pc : PushConstants) (life_out : List Nat) (i : Int) : Vec4 :=
  if readBuf life_out i = 1 then pc.life_color else pc.dead_color

/-- A concrete colorization push-constant block (phase 1). -/
def colorPc : PushConstants :=
  { life_color := (1, 0, 0, 1)
    dead_color := (0, 0, 1, 1)
    step := 1
    swap_read_order := false }

/-- Membership of a cell coordinate in the `w` by `h` grid. -/
def inGrid (w h : Nat) (p : Int × Int) : Prop :=
  0 ≤ p.1 ∧ p.1 < (w : Int) ∧ 0 ≤ p.2 ∧ p.2 < (h : Int)

instance (w h : Nat) (p : Int × Int) : Decidable (inGrid w h p) := by
  unfold inGrid; infer_instance

/-- Geometric Moore adjacency: `q` is one of the eight cells around `p`. -/
def isNeighborOf (p q : Int × Int) : Prop :=
  q ≠ p ∧ p.1 - 1 ≤ q.1 ∧ q.1 ≤ p.1 + 1 ∧ p.2 - 1 ≤ q.2 ∧ q.2 ≤ p.2 + 1

instance (p q : Int × Int) : Decidable (isNeighborOf p q) := by
  unfold isNeighborOf; infer_instance

/-- A grid cell lying on the perimeter of the `w` by `h` grid. -/
def isPerimeter (w h : Nat) (p : Int × Int) : Prop :=
  inGrid w h p ∧ (p.1 = 0 ∨ p.1 = (w : Int) - 1 ∨ p.2 = 0 ∨ p.2 = (h : Int) - 1)

instance (w h : Nat) (p : Int × Int) : Decidable (isPerimeter w h p) := by
  unfold isPerimeter; infer_instance

/-- A grid cell all of whose eight neighbors are again grid cells. -/
def isInterior (w h : Nat) (p : Int × Int) : Prop :=
  0 < p.1 ∧ p.1 < (w : Int) - 1 ∧ 0 < p.2 ∧ p.2 < (h : Int) - 1

instance (w h : Nat) (p : Int × Int) : Decidable (isInterior w h p) := by
  unfold isInterior; infer_instance

-- Claim C3 exercises only `life_rule`; check it on a couple of points.
example : life_rule 0 3 = 1 := by decide
example : life_rule 1 4 = 0 := by decide
example : life_rule 0 8 = 0 := by decide

/-- C3: for every current state in `{alive, dead}` and every alive-neighbor
count in `0..8`, the rule branch of `compute_life` writes: alive if the cell
is dead with exactly 3 alive neighbors; dead if the cell is alive with fewer
than 2 or more than 3 alive neighbors; otherwise the current state unchanged. -/
theorem life_rule_matches_conway (c n : Nat) (hc : c ≤ 1) (hn : n ≤ 8) :
    (c = 0 → n = 3 → life_rule c n = 1)
    ∧ (c = 1 → (n < 2 ∨ 3 < n) → life_rule c n = 0)
    ∧ (¬(c = 0 ∧ n = 3) → ¬(c = 1 ∧ (n < 2 ∨ 3 < n)) → life_rule c n = c) := by
  interval_cases c <;> interval_cases n <;> simp [life_rule]

/-- Witness for `life_rule_matches_conway` at concrete inputs. -/
theorem life_rule_matches_conway_witness :
    life_rule 0 3 = 1 ∧ life_rule 1 4 = 0 ∧ life_rule 1 2 = 1 :=
  ⟨(life_rule_matches_conway 0 3 (by decide) (by decide)).1 rfl rfl,
   (life_rule_matches_conway 1 4 (by decide) (by decide)).2.1 rfl (Or.inr (by decide)),
   (life_rule_matches_conway 1 2 (by decide) (by decide)).2.2 (by decide) (by decide)⟩

set_option maxRecDepth 8000

/-- C1: the spec claims that for every step call, colorization reads each
cell from the buffer the simulation dispatch of the same call just wrote,
for both parities.  The shader's `compute_color` instead reads `life_out`
unconditionally, so at even parity (where `swap_read_order` is true and the
simulation writes `life_in`) colorization reads the simulation's *input*
buffer.  Concrete run: an 8 by 8 engine at step counter 0 whose cell (4,4)
(flat index 36) turns alive — the new generation in `life_in` holds 1 there
and the stale `life_out` holds 0, yet the texel receives `dead_color`.
This contradicts the source comment "Then color based on the next state". -/
theorem colorization_reads_sim_input_buffer :
    ((evenEngine8.compute (1, 0, 0, 1) (0, 0, 1, 1)).buffers.life_in)[36]? = some 1
    ∧ ((evenEngine8.compute (1, 0, 0, 1) (0, 0, 1, 1)).buffers.life_out)[36]? = some 0
    ∧ ((evenEngine8.compute (1, 0, 0, 1) (0, 0, 1, 1)).buffers.img)[36]? =
        some ((0, 0, 1, 1) : Vec4)
    ∧ ((0, 0, 1, 1) : Vec4) ≠ ((1, 0, 0, 1) : Vec4) := by
  refine ⟨by decide, by decide, by decide, by decide⟩

/-- C2: the spec claims every cell's new state is a function only of the
previous generation's authoritative buffer, for both parities, matching a
reference CPU step on a snapshot.  The shader counts neighbors from
`life_out` unconditionally, so at odd parity (`swap_read_order` false) it
reads the stale non-authoritative buffer — which it is simultaneously
writing.  Concrete run: an 8 by 8 engine at step counter 1, authoritative
`life_in` all dead; the reference step of the authoritative snapshot keeps
cell (4,4) dead, but the kernel turns it alive from the three stale
`life_out` cells.  Moreover two schedules of the same dispatch disagree at
cell (1,1): one invocation observes a neighbor's current-step write.  This
contradicts the struct documentation of `GameOfLife` ("Otherwise the state
would not be correctly determined as one thread might read data that was
just written by another thread"). -/
theorem simulation_reads_nonauthoritative_buffer :
    ((oddEngine8.compute (1, 0, 0, 1) (0, 0, 1, 1)).buffers.life_out)[36]? = some 1
    ∧ (life_ref_step 8 8 oddEngine8.buffers.life_in)[36]? = some 0
    ∧ ((runInvocations 8 oddSimPc [(1, 1), (2, 1)] raceState8).life_out)[9]? ≠
        ((runInvocations 8 oddSimPc [(2, 1), (1, 1)] raceState8).life_out)[9]? := by
  refine ⟨by decide, by decide, by decide⟩

/-- C4: every step call records exactly two dispatches in a fixed order —
simulation (phase 0, swap flag from the step counter's parity) then
colorization (phase 1) — submits them, blocks on the fence, and only then
performs the counter increment, `self.sim_steps += 1` in the counter's own
`u32` arithmetic (addition modulo 2^32). -/
theorem compute_dispatch_order_and_counter (s : Nat) (g : GameOfLife) (c d : Vec4) :
    (computeEvents s).filter GpuEvent.isDispatchCmd =
      [GpuEvent.dispatchCmd 0 (s % 2 = 0), GpuEvent.dispatchCmd 1 false]
    ∧ (computeEvents s).take 2 =
      [GpuEvent.dispatchCmd 0 (s % 2 = 0), GpuEvent.dispatchCmd 1 false]
    ∧ (computeEvents s).drop 2 = [GpuEvent.submit, GpuEvent.fenceWait, GpuEvent.incStep]
    ∧ (g.compute c d).sim_steps = (g.sim_steps + 1) % 4294967296 := by
  refine ⟨?_, rfl, rfl, rfl⟩
  simp [computeEvents, GpuEvent.isDispatchCmd]

/-- Helper: `draw_life` never touches the step counter. -/
theorem draw_life_sim_steps (g : GameOfLife) (pos : Int × Int) (radius : Int)
    (coin : Int × Int → Bool) : (g.draw_life pos radius coin).sim_steps = g.sim_steps := by
  unfold GameOfLife.draw_life
  split
  · rfl
  · split <;> rfl

/-- Helper: over any operation sequence the step counter follows `u32`
arithmetic — starting in range, it ends at the start value plus the number
of step calls, modulo 2^32. -/
theorem runOps_sim_steps (ops : List EngineOp) (g : GameOfLife)
    (hg : g.sim_steps < 4294967296) :
    (g.runOps ops).sim_steps =
      (g.sim_steps + ops.countP EngineOp.isStep) % 4294967296 := by
  induction ops generalizing g with
  | nil =>
    have h0 : (g.runOps []).sim_steps = g.sim_steps := rfl
    rw [h0]
    simp
    omega
  | cons op ops ih =>
    cases op with
    | edit pos radius coin =>
      have h1 : (g.runOps (EngineOp.edit pos radius coin :: ops)) =
          ((g.draw_life pos radius coin).runOps ops) := rfl
      rw [h1, ih (g.draw_life pos radius coin)
        (by rw [draw_life_sim_steps]; exact hg), draw_life_sim_steps]
      simp [List.countP_cons, EngineOp.isStep]
    | step c d =>
      have h1 : (g.runOps (EngineOp.step c d :: ops)) = ((g.compute c d).runOps ops) := rfl
      have h2 : (g.compute c d).sim_steps = (g.sim_steps + 1) % 4294967296 := rfl
      rw [h1, ih (g.compute c d) (by rw [h2]; exact Nat.mod_lt _ (by norm_num)), h2]
      simp only [List.countP_cons, EngineOp.isStep, if_true]
      omega

/-- C6 counterexample: `sim_steps` is a `u32`, so a step call performed at
counter value 2^32 - 1 wraps the counter to 0 (release-mode semantics; a
debug build would panic) — the counter is not incremented by exactly 1
there, it is decremented, and after N = 2^32 step calls it holds 0, not N. -/
theorem sim_steps_wraps_at_u32 :
    (wrapEngine8.compute (1, 0, 0, 1) (0, 0, 1, 1)).sim_steps = 0
    ∧ wrapEngine8.sim_steps = 4294967295
    ∧ (wrapEngine8.compute (1, 0, 0, 1) (0, 0, 1, 1)).sim_steps ≠ wrapEngine8.sim_steps + 1
    ∧ (wrapEngine8.compute (1, 0, 0, 1) (0, 0, 1, 1)).sim_steps < wrapEngine8.sim_steps := by
  refine ⟨by decide, by decide, by decide, by decide⟩

/-- C6 (amended for the `u32` wrap): the step counter is 0 after
construction, incremented by exactly 1 modulo 2^32 per step call (`u32`
arithmetic), left unchanged by `draw_life` (and `color_image` is a pure
getter), so after any operation sequence it equals the number of step calls
performed since construction modulo 2^32 — and its parity, which drives the
buffer selection, alternates deterministically with the step count
regardless of intervening edits (2^32 being even). -/
theorem sim_steps_counter_invariants :
    (∀ w h a b, (GameOfLife.new w h a b).sim_steps = 0)
    ∧ (∀ (g : GameOfLife) (c d : Vec4),
        (g.compute c d).sim_steps = (g.sim_steps + 1) % 4294967296)
    ∧ (∀ (g : GameOfLife) pos radius coin,
        (g.draw_life pos radius coin).sim_steps = g.sim_steps)
    ∧ (∀ (g : GameOfLife), g.color_image = g.buffers.img)
    ∧ (∀ w h a b ops,
        ((GameOfLife.new w h a b).runOps ops).sim_steps =
          ops.countP EngineOp.isStep % 4294967296)
    ∧ (∀ w h a b ops,
        ((GameOfLife.new w h a b).runOps ops).sim_steps % 2 =
          ops.countP EngineOp.isStep % 2) :=
  ⟨fun _ _ _ _ => rfl,
   fun _ _ _ => rfl,
   draw_life_sim_steps,
   fun _ => rfl,
   fun w h a b ops => by
     rw [runOps_sim_steps ops (GameOfLife.new w h a b)
       (by show (0 : Nat) < 4294967296; norm_num)]
     have h0 : (GameOfLife.new w h a b).sim_steps = 0 := rfl
     rw [h0, Nat.zero_add],
   fun w h a b ops => by
     rw [runOps_sim_steps ops (GameOfLife.new w h a b)
       (by show (0 : Nat) < 4294967296; norm_num)]
     have h0 : (GameOfLife.new w h a b).sim_steps = 0 := rfl
     rw [h0]
     omega⟩

/-- C8: the quad pipeline's geometry is a static 4-vertex, 6-index quad
(two triangles) spanning the clip-space square from (-1,-1) to (1,1), fixed
at construction, and every draw call binds the source texture with a
nearest-filter clamp-to-edge sampler, pushes an identity world-to-screen
transform, and issues exactly one indexed draw call with those 6 indices. -/
theorem quad_pipeline_static_geometry_draw (dims : Nat × Nat) (image : Nat) :
    DrawQuadPipeline.new.vertices.length = 4
    ∧ DrawQuadPipeline.new.indices = [0, 2, 1, 0, 3, 2]
    ∧ DrawQuadPipeline.new.vertices.map TexturedVertex.position =
        [(-1, -1), (-1, 1), (1, 1), (1, -1)]
    ∧ DrawQuadPipeline.new.sampler =
        { mag_filter := .nearest
          min_filter := .nearest
          address_mode := (.clampToEdge, .clampToEdge, .clampToEdge)
          mipmap_mode := .nearest }
    ∧ (DrawQuadPipeline.new.draw dims image).filter QuadCmd.isDrawIndexed =
        [QuadCmd.drawIndexed 6 1 0 0 0]
    ∧ DrawQuadPipeline.new.draw dims image =
        [QuadCmd.setViewport (0, 0) ((dims.1 : ℚ), (dims.2 : ℚ)) 0 1,
         QuadCmd.bindPipelineGraphics,
         QuadCmd.bindDescriptorSets image DrawQuadPipeline.new.sampler,
         QuadCmd.pushConstants mat4_identity_cols,
         QuadCmd.bindVertexBuffers DrawQuadPipeline.new.vertices,
         QuadCmd.bindIndexBuffer DrawQuadPipeline.new.indices,
         QuadCmd.drawIndexed 6 1 0 0 0] := by
  refine ⟨by decide, by decide, ?_, by decide, ?_, ?_⟩
  · simp [DrawQuadPipeline.new, textured_quad, TexturedVertex.position]
  · simp [DrawQuadPipeline.draw, QuadCmd.isDrawIndexed, DrawQuadPipeline.new, textured_quad]
  · rfl

/-- C9: `FillScreenRenderPass::draw` records one render pass against the
target, cleared with the given clear color, containing a single secondary
command buffer that holds exactly one quad-pipeline draw of the source
texture, ends the render pass, and returns — without any blocking wait —
the future chaining this command buffer after the input frame future. -/
theorem composite_pass_draw_structure (rp : FillScreenRenderPass) (before : FrameFuture)
    (canvas : Nat) (target : SwapchainTarget) (clear : Vec4) :
    rp.draw before canvas target clear =
      FrameFuture.thenExecute before
        [RenderCmd.beginRenderPass clear target.id,
         RenderCmd.executeCommands (rp.quad_pipeline.draw target.dims canvas),
         RenderCmd.endRenderPass]
    ∧ ((rp.quad_pipeline.draw target.dims canvas).filter QuadCmd.isDrawIndexed).length = 1
    ∧ FillScreenRenderPass.new.render_pass =
        { load := AttachmentLoadOp.clear, store := AttachmentStoreOp.store } := by
  refine ⟨rfl, ?_, rfl⟩
  simp [DrawQuadPipeline.draw, QuadCmd.isDrawIndexed]

/-- Helper: one `drawCell` application changes a flat index only if that
index encodes an in-bounds cell within the rounded brush distance. -/
theorem drawCell_changes (w h : Nat) (center : Int × Int) (radius : Int)
    (coin : Int × Int → Bool) (buf : List Nat) (p : Int × Int) (i : Nat)
    (hne : (drawCell w h center radius coin buf p)[i]? ≠ buf[i]?) :
    ∃ x y : Int, 0 ≤ x ∧ x < (w : Int) ∧ 0 ≤ y ∧ y < (h : Int)
      ∧ roundDistLe (x - center.1) (y - center.2) radius = true
      ∧ (i : Int) = y * (w : Int) + x := by
  unfold drawCell at hne
  split at hne
  case isFalse => exact absurd rfl hne
  case isTrue hdist =>
    split at hne
    case isTrue hoob => exact absurd rfl hne
    case isFalse hoob =>
      split at hne
      case isFalse => exact absurd rfl hne
      case isTrue hcoin =>
        push_neg at hoob
        obtain ⟨h1, h2, h3, h4⟩ := hoob
        by_cases hidx : (p.2 * (w : Int) + p.1).toNat = i
        · refine ⟨p.1, p.2, h3, h4, h1, h2, hdist, ?_⟩
          have henc : (0 : Int) ≤ p.2 * (w : Int) + p.1 :=
            add_nonneg (mul_nonneg h1 (Int.natCast_nonneg w)) h3
          omega
        · exact absurd (List.getElem?_set_ne hidx) hne

/-- Helper: the `drawScan` fold changes a flat index only if that index
encodes an in-bounds cell within the rounded brush distance. -/
theorem foldl_drawCell_changes (w h : Nat) (center : Int × Int) (radius : Int)
    (coin : Int × Int → Bool) (cells : List (Int × Int)) :
    ∀ (buf : List Nat) (i : Nat),
      (List.foldl (drawCell w h center radius coin) buf cells)[i]? ≠ buf[i]? →
      ∃ x y : Int, 0 ≤ x ∧ x < (w : Int) ∧ 0 ≤ y ∧ y < (h : Int)
        ∧ roundDistLe (x - center.1) (y - center.2) radius = true
        ∧ (i : Int) = y * (w : Int) + x := by
  induction cells with
  | nil => intro buf i hne; exact absurd rfl hne
  | cons p cells ih =>
    intro buf i hne
    rw [List.foldl_cons] at hne
    by_cases hmid :
        (List.foldl (drawCell w h center radius coin)
            (drawCell w h center radius coin buf p) cells)[i]? =
          (drawCell w h center radius coin buf p)[i]?
    · exact drawCell_changes w h center radius coin buf p i (by rw [← hmid]; exact hne)
    · exact ih (drawCell w h center radius coin buf p) i hmid

/-- Helper: a changed index of the edited buffer after `draw_life` encodes
an in-bounds cell within the rounded brush distance. -/
theorem draw_life_only_brush (g : GameOfLife) (pos : Int × Int) (radius : Int)
    (coin : Int × Int → Bool) (i : Nat)
    (hne : (edit_target (g.draw_life pos radius coin))[i]? ≠ (edit_target g)[i]?) :
    ∃ x y : Int, 0 ≤ x ∧ x < (g.width : Int) ∧ 0 ≤ y ∧ y < (g.height : Int)
      ∧ roundDistLe (x - pos.1) (y - pos.2) radius = true
      ∧ (i : Int) = y * (g.width : Int) + x := by
  unfold GameOfLife.draw_life at hne
  split at hne
  · exact absurd rfl hne
  · by_cases hpar : g.sim_steps % 2 = 0
    · rw [if_pos hpar] at hne
      unfold edit_target at hne
      simp only [hpar, if_pos] at hne
      exact foldl_drawCell_changes g.width g.height pos radius coin _ _ i hne
    · rw [if_neg hpar] at hne
      unfold edit_target at hne
      simp only [hpar, if_neg, if_false] at hne
      exact foldl_drawCell_changes g.width g.height pos radius coin _ _ i hne

/-- Helper: an edit at position (0,0) with radius 0 can change the edited
buffer at flat index 0 only. -/
theorem draw_life_radius0_origin (g : GameOfLife) (coin : Int × Int → Bool)
    (i : Nat) (hi : i ≠ 0) :
    (edit_target (g.draw_life (0, 0) 0 coin))[i]? = (edit_target g)[i]? := by
  by_contra hne
  obtain ⟨x, y, hx0, hxw, hy0, hyh, hdist, henc⟩ := draw_life_only_brush g (0, 0) 0 coin i hne
  simp only [roundDistLe, decide_eq_true_eq, Int.sub_zero] at hdist
  have h4 : 4 * (x ^ 2 + y ^ 2) < 1 := by
    have := hdist.2
    simpa using this
  have hx2 : x ^ 2 = 0 :=
    le_antisymm (by nlinarith [sq_nonneg y]) (sq_nonneg x)
  have hy2 : y ^ 2 = 0 :=
    le_antisymm (by nlinarith [sq_nonneg x]) (sq_nonneg y)
  have hx : x = 0 := sq_eq_zero_iff.mp hx2
  have hy : y = 0 := sq_eq_zero_iff.mp hy2
  rw [hx, hy] at henc
  simp at henc
  exact hi henc

/-- C5: `draw_life` edits only in-bounds cells whose rounded Euclidean
distance to the brush position is at most the radius — an out-of-bounds
position makes the whole call a no-op, scanned coordinates outside the grid
are skipped, all other engine state (dimensions, counter, image, the other
grid buffer) is untouched, and an edit at (0,0) with radius 0 can affect
only the cell of flat index 0. -/
theorem draw_life_bounds (g : GameOfLife) (pos : Int × Int) (radius : Int)
    (coin : Int × Int → Bool) :
    ((pos.2 < 0 ∨ (g.height : Int) ≤ pos.2 ∨ pos.1 < 0 ∨ (g.width : Int) ≤ pos.1) →
        g.draw_life pos radius coin = g)
    ∧ (∀ i : Nat,
        (edit_target (g.draw_life pos radius coin))[i]? ≠ (edit_target g)[i]? →
        ∃ x y : Int, 0 ≤ x ∧ x < (g.width : Int) ∧ 0 ≤ y ∧ y < (g.height : Int)
          ∧ roundDistLe (x - pos.1) (y - pos.2) radius = true
          ∧ (i : Int) = y * (g.width : Int) + x)
    ∧ ((g.draw_life pos radius coin).width = g.width
       ∧ (g.draw_life pos radius coin).height = g.height
       ∧ (g.draw_life pos radius coin).sim_steps = g.sim_steps
       ∧ (g.draw_life pos radius coin).buffers.img = g.buffers.img
       ∧ (if g.sim_steps % 2 = 0
          then (g.draw_life pos radius coin).buffers.life_in = g.buffers.life_in
          else (g.draw_life pos radius coin).buffers.life_out = g.buffers.life_out))
    ∧ (∀ (coin0 : Int × Int → Bool) (i : Nat), i ≠ 0 →
        (edit_target (g.draw_life (0, 0) 0 coin0))[i]? = (edit_target g)[i]?) := by
  refine ⟨?_, draw_life_only_brush g pos radius coin, ?_, fun coin0 i hi =>
    draw_life_radius0_origin g coin0 i hi⟩
  · intro hoob
    unfold GameOfLife.draw_life
    rw [if_pos hoob]
  · unfold GameOfLife.draw_life
    split
    · refine ⟨rfl, rfl, rfl, rfl, ?_⟩
      split <;> rfl
    · split
      case isTrue hpar => exact ⟨rfl, rfl, rfl, rfl, rfl⟩
      case isFalse hpar => exact ⟨rfl, rfl, rfl, rfl, rfl⟩

/-- Witness for `draw_life_bounds`: the out-of-bounds no-op, an actual
brush write at the origin, and the radius-0 locality, on the concrete 8 by 8
engine. -/
theorem draw_life_bounds_witness :
    evenEngine8.draw_life (8, 0) 3 (fun _ => true) = evenEngine8
    ∧ (∃ x y : Int, 0 ≤ x ∧ x < (8 : Int) ∧ 0 ≤ y ∧ y < (8 : Int)
        ∧ roundDistLe (x - 0) (y - 0) 0 = true
        ∧ ((0 : Nat) : Int) = y * (8 : Int) + x)
    ∧ (edit_target (evenEngine8.draw_life (0, 0) 0 (fun _ => true)))[5]? =
        (edit_target evenEngine8)[5]? := by
  refine ⟨(draw_life_bounds evenEngine8 (8, 0) 3 (fun _ => true)).1 (by decide), ?_, ?_⟩
  · exact (draw_life_bounds evenEngine8 (0, 0) 0 (fun _ => true)).2.1 0 (by decide)
  · exact (draw_life_bounds evenEngine8 (0, 0) 0 (fun _ => true)).2.2.2 (fun _ => true) 5
      (by decide)


/-- Helper: `writeBuf` never changes the buffer length. -/
theorem writeBuf_length {α : Type} (l : List α) (i : Int) (v : α) :
    (writeBuf l i v).length = l.length := by
  unfold writeBuf; split <;> simp

/-- Helper: `compute_color` only stores `color_value` into the texel of the
invocation's flat index. -/
theorem compute_color_eq (w : Int) (pc : PushConstants) (pos : Int × Int) (st : SimState) :
    compute_color w pc pos st =
      { st with
          img := writeBuf st.img (get_index w pos)
            (color_value pc st.life_out (get_index w pos)) } := by
  unfold compute_color color_value
  split
  case isTrue h => rw [if_pos h]
  case isFalse h => rw [if_neg h]

/-- Helper: a colorization dispatch (phase 1) leaves both grid buffers
untouched, preserves the image length, and writes into each covered texel a
value that depends only on `life_out` and the texel index. -/
theorem runColor_spec (w : Int) (pc : PushConstants) (hpc : pc.step = 1) :
    ∀ (sched : List (Int × Int)) (st : SimState),
      (runInvocations w pc sched st).life_in = st.life_in
      ∧ (runInvocations w pc sched st).life_out = st.life_out
      ∧ (runInvocations w pc sched st).img.length = st.img.length
      ∧ ∀ i : Nat,
          (runInvocations w pc sched st).img[i]? =
            if sched.any (fun p => get_index w p == (i : Int)) then
              (if i < st.img.length then some (color_value pc st.life_out (i : Int)) else none)
            else st.img[i]? := by
  intro sched
  induction sched with
  | nil => intro st; exact ⟨rfl, rfl, rfl, fun i => by simp [runInvocations]⟩
  | cons p sched ih =>
    intro st
    have hmain : ∀ st' : SimState, shader_main w pc p st' = compute_color w pc p st' := by
      intro st'
      unfold shader_main
      rw [if_neg (by rw [hpc]; decide)]
    have hrun : runInvocations w pc (p :: sched) st =
        runInvocations w pc sched (compute_color w pc p st) := by
      unfold runInvocations
      rw [List.foldl_cons, hmain]
    obtain ⟨ih1, ih2, ih3, ih4⟩ := ih (compute_color w pc p st)
    rw [compute_color_eq w pc p st] at ih1 ih2 ih3 ih4
    dsimp only at ih1 ih2 ih3 ih4
    rw [writeBuf_length] at ih3
    refine ⟨by rw [hrun, compute_color_eq w pc p st]; exact ih1,
            by rw [hrun, compute_color_eq w pc p st]; exact ih2,
            by rw [hrun, compute_color_eq w pc p st]; exact ih3, ?_⟩
    intro i
    rw [hrun, compute_color_eq w pc p st, ih4 i, writeBuf_length]
    cases hany : sched.any (fun p => get_index w p == (i : Int)) with
    | true => simp [List.any_cons, hany]
    | false =>
      simp only [hany, Bool.false_eq_true, if_false, List.any_cons, Bool.or_false]
      cases hp : (get_index w p == (i : Int)) with
      | true =>
        have hpi : get_index w p = (i : Int) := beq_iff_eq.mp hp
        simp only [hp, if_true]
        unfold writeBuf
        rw [if_pos (by rw [hpi]; exact Int.natCast_nonneg i)]
        have htn : (get_index w p).toNat = i := by rw [hpi]; rfl
        rw [htn, List.getElem?_set_self', hpi]
        rcases Nat.lt_or_ge i st.img.length with hlt | hge
        · rw [List.getElem?_eq_getElem hlt, if_pos hlt]
          simp
        · rw [List.getElem?_eq_none hge, if_neg (by omega)]
          simp
      | false =>
        have hpi : get_index w p ≠ (i : Int) := by
          intro he
          rw [he] at hp
          simp at hp
        simp only [hp, Bool.false_eq_true, if_false]
        unfold writeBuf
        split
        case isFalse => rfl
        case isTrue hnn => exact List.getElem?_set_ne (by omega)

/-- C7: the colorization dispatch is idempotent and side-effect-free on the
grids: running it twice (under any schedule) produces the same texture as
running it once, and one run leaves both grid buffers unchanged. -/
theorem colorization_idempotent_pure (w : Int) (pc : PushConstants)
    (sched : List (Int × Int)) (st : SimState) (hpc : pc.step = 1) :
    (runInvocations w pc sched (runInvocations w pc sched st)).img =
      (runInvocations w pc sched st).img
    ∧ (runInvocations w pc sched st).life_in = st.life_in
    ∧ (runInvocations w pc sched st).life_out = st.life_out := by
  obtain ⟨hin, hout, hlen, hchar⟩ := runColor_spec w pc hpc sched st
  obtain ⟨hin2, hout2, hlen2, hchar2⟩ :=
    runColor_spec w pc hpc sched (runInvocations w pc sched st)
  refine ⟨List.ext_getElem? fun i => ?_, hin, hout⟩
  rw [hchar2 i, hout, hlen]
  cases hany : sched.any (fun p => get_index w p == (i : Int)) with
  | true =>
    rw [hchar i]
    simp [hany]
  | false => simp [hany]

/-- Witness for `colorization_idempotent_pure` at a concrete dispatch. -/
theorem colorization_idempotent_pure_witness :
    (runInvocations 8 colorPc [(0, 0)] (runInvocations 8 colorPc [(0, 0)] raceState8)).img =
      (runInvocations 8 colorPc [(0, 0)] raceState8).img
    ∧ (runInvocations 8 colorPc [(0, 0)] raceState8).life_in = raceState8.life_in
    ∧ (runInvocations 8 colorPc [(0, 0)] raceState8).life_out = raceState8.life_out :=
  colorization_idempotent_pure 8 colorPc [(0, 0)] raceState8 rfl

/-- Helper: the flat index of an in-grid cell lies in `[0, w*h)`. -/
theorem get_index_range (w h : Nat) (q : Int × Int) (hq : inGrid w h q) :
    0 ≤ get_index (w : Int) q ∧ get_index (w : Int) q < (w : Int) * (h : Int) := by
  obtain ⟨h1, h2, h3, h4⟩ := hq
  unfold get_index
  have hw : (0 : Int) ≤ (w : Int) := Int.natCast_nonneg w
  constructor
  · have := mul_nonneg h3 hw
    linarith
  · have h5 : (q.2 + 1) * (w : Int) ≤ (h : Int) * (w : Int) :=
      mul_le_mul_of_nonneg_right (by omega) hw
    rw [add_mul, one_mul] at h5
    have h6 : (h : Int) * (w : Int) = (w : Int) * (h : Int) := mul_comm _ _
    linarith

/-- Helper: flat indexing is injective on in-grid cells. -/
theorem get_index_inj (w h : Nat) (q q' : Int × Int) (hq : inGrid w h q)
    (hq' : inGrid w h q') (he : get_index (w : Int) q = get_index (w : Int) q') :
    q = q' := by
  obtain ⟨a1, a2, a3, a4⟩ := hq
  obtain ⟨b1, b2, b3, b4⟩ := hq'
  unfold get_index at he
  have hw : (0 : Int) ≤ (w : Int) := Int.natCast_nonneg w
  have hyy : q.2 = q'.2 := by
    rcases lt_trichotomy q.2 q'.2 with hlt | heq | hgt
    · exfalso
      have hm : (q.2 + 1) * (w : Int) ≤ q'.2 * (w : Int) :=
        mul_le_mul_of_nonneg_right (by omega) hw
      rw [add_mul, one_mul] at hm
      linarith
    · exact heq
    · exfalso
      have hm : (q'.2 + 1) * (w : Int) ≤ q.2 * (w : Int) :=
        mul_le_mul_of_nonneg_right (by omega) hw
      rw [add_mul, one_mul] at hm
      linarith
  have hxx : q.1 = q'.1 := by
    rw [hyy] at he
    linarith
  exact Prod.ext hxx hyy

/-- C10: the shader's neighbor addressing has no bounds checks: for every
perimeter cell at least one of the eight neighbor reads either addresses a
flat index outside `[0, w*h)` or an index that is the encoding of no
geometrically adjacent in-grid cell (it wraps into another row); for every
interior cell all eight reads stay in range and address exactly the
geometrically adjacent cells (flat indexing being injective on the grid). -/
theorem neighbor_indexing_edge_artifact (w h : Nat) (p : Int × Int) :
    (isPerimeter w h p →
      ∃ o ∈ neighborOffsets,
        get_index (w : Int) (p.1 + o.1, p.2 + o.2) < 0
        ∨ (w : Int) * (h : Int) ≤ get_index (w : Int) (p.1 + o.1, p.2 + o.2)
        ∨ ∀ q : Int × Int, inGrid w h q → isNeighborOf p q →
            get_index (w : Int) q ≠ get_index (w : Int) (p.1 + o.1, p.2 + o.2))
    ∧ (isInterior w h p →
        ∀ o ∈ neighborOffsets,
          inGrid w h (p.1 + o.1, p.2 + o.2)
          ∧ isNeighborOf p (p.1 + o.1, p.2 + o.2)
          ∧ 0 ≤ get_index (w : Int) (p.1 + o.1, p.2 + o.2)
          ∧ get_index (w : Int) (p.1 + o.1, p.2 + o.2) < (w : Int) * (h : Int))
    ∧ (∀ q q' : Int × Int, inGrid w h q → inGrid w h q' →
        get_index (w : Int) q = get_index (w : Int) q' → q = q') := by
  refine ⟨?_, ?_, get_index_inj w h⟩
  · rintro ⟨⟨hx0, hxw, hy0, hyh⟩, hcase⟩
    have hw : (0 : Int) ≤ (w : Int) := Int.natCast_nonneg w
    rcases hcase with hx | hx | hy | hy
    · -- left column: the down_left read lands strictly below every in-grid
      -- adjacent cell's encoding
      refine ⟨(-1, -1), by decide, Or.inr (Or.inr ?_)⟩
      intro q hq hnb heq
      obtain ⟨q1, q2, q3, q4⟩ := hq
      obtain ⟨hne, n1, n2, n3, n4⟩ := hnb
      unfold get_index at heq
      dsimp only at heq
      have hm : (p.2 - 1) * (w : Int) ≤ q.2 * (w : Int) :=
        mul_le_mul_of_nonneg_right (by omega) hw
      rw [sub_mul, one_mul] at hm
      rw [hx] at heq
      have he2 : q.2 * (w : Int) + q.1 = (p.2 * (w : Int) - (w : Int)) + -1 := by
        rw [heq]; ring
      linarith
    · -- right column: the up_right read lands strictly above every in-grid
      -- adjacent cell's encoding
      refine ⟨(1, 1), by decide, Or.inr (Or.inr ?_)⟩
      intro q hq hnb heq
      obtain ⟨q1, q2, q3, q4⟩ := hq
      obtain ⟨hne, n1, n2, n3, n4⟩ := hnb
      unfold get_index at heq
      dsimp only at heq
      have hm : q.2 * (w : Int) ≤ (p.2 + 1) * (w : Int) :=
        mul_le_mul_of_nonneg_right (by omega) hw
      rw [add_mul, one_mul] at hm
      rw [hx] at heq
      have he2 : q.2 * (w : Int) + q.1 = (p.2 * (w : Int) + (w : Int)) + (w : Int) := by
        rw [heq]; ring
      linarith
    · -- bottom row: the down read has a negative flat index
      refine ⟨(0, -1), by decide, Or.inl ?_⟩
      unfold get_index
      dsimp only
      rw [hy]
      have he2 : ((0 : Int) + -1) * (w : Int) + (p.1 + 0) = p.1 - (w : Int) := by ring
      rw [he2]
      omega
    · -- top row: the up read has a flat index at or past w*h
      refine ⟨(0, 1), by decide, Or.inr (Or.inl ?_)⟩
      unfold get_index
      dsimp only
      rw [hy]
      have he2 : ((h : Int) - 1 + 1) * (w : Int) + (p.1 + 0) = (h : Int) * (w : Int) + p.1 := by
        ring
      rw [he2]
      have h6 : (h : Int) * (w : Int) = (w : Int) * (h : Int) := mul_comm _ _
      linarith
  · rintro ⟨hi1, hi2, hi3, hi4⟩ o ho
    have hall : ∀ o' ∈ neighborOffsets,
        (¬(o'.1 = 0 ∧ o'.2 = 0)) ∧ -1 ≤ o'.1 ∧ o'.1 ≤ 1 ∧ -1 ≤ o'.2 ∧ o'.2 ≤ 1 := by decide
    obtain ⟨hoz, ho1, ho2, ho3, ho4⟩ := hall o ho
    have hg : inGrid w h (p.1 + o.1, p.2 + o.2) := by
      unfold inGrid
      dsimp only
      omega
    have hnb : isNeighborOf p (p.1 + o.1, p.2 + o.2) := by
      unfold isNeighborOf
      refine ⟨?_, by dsimp only; omega, by dsimp only; omega,
        by dsimp only; omega, by dsimp only; omega⟩
      intro hq
      rw [Prod.ext_iff] at hq
      dsimp only at hq
      omega
    have hr := get_index_range w h (p.1 + o.1, p.2 + o.2) hg
    exact ⟨hg, hnb, hr.1, hr.2⟩

/-- Witness for `neighbor_indexing_edge_artifact`: the perimeter cell (0,3)
and the interior cell (3,3) with its up_right neighbor, on the 8 by 8 grid. -/
theorem neighbor_indexing_edge_artifact_witness :
    (∃ o ∈ neighborOffsets,
        get_index ((8 : Nat) : Int) (((0 : Int), (3 : Int)).1 + o.1, ((0 : Int), (3 : Int)).2 + o.2) < 0
        ∨ ((8 : Nat) : Int) * ((8 : Nat) : Int) ≤
            get_index ((8 : Nat) : Int) (((0 : Int), (3 : Int)).1 + o.1, ((0 : Int), (3 : Int)).2 + o.2)
        ∨ ∀ q : Int × Int, inGrid 8 8 q → isNeighborOf ((0 : Int), (3 : Int)) q →
            get_index ((8 : Nat) : Int) q ≠
              get_index ((8 : Nat) : Int) (((0 : Int), (3 : Int)).1 + o.1, ((0 : Int), (3 : Int)).2 + o.2))
    ∧ inGrid 8 8 (((3 : Int), (3 : Int)).1 + 1, ((3 : Int), (3 : Int)).2 + 1)
    ∧ isNeighborOf ((3 : Int), (3 : Int)) (((3 : Int), (3 : Int)).1 + 1, ((3 : Int), (3 : Int)).2 + 1)
    ∧ 0 ≤ get_index ((8 : Nat) : Int) (((3 : Int), (3 : Int)).1 + 1, ((3 : Int), (3 : Int)).2 + 1)
    ∧ get_index ((8 : Nat) : Int) (((3 : Int), (3 : Int)).1 + 1, ((3 : Int), (3 : Int)).2 + 1) <
        ((8 : Nat) : Int) * ((8 : Nat) : Int) := by
  have h1 := (neighbor_indexing_edge_artifact 8 8 ((0 : Int), (3 : Int))).1 (by decide)
  have h2 := (neighbor_indexing_edge_artifact 8 8 ((3 : Int), (3 : Int))).2.1 (by decide)
    ((1 : Int), (1 : Int)) (by decide)
  exact ⟨h1, h2.1, h2.2.1, h2.2.2.1, h2.2.2.2⟩
